import Mathlib

/-!
Shallow embedding of the technical-constraints decision engine of the
jcjones/gx509 repository.

The primary evaluator is `DetermineIfTechnicallyConstrained` from
`gx509/technicalconstraints.go`; a second, older variant of the same
function (with an unchecked `isAllZeros`) appears in `gx509.go` and is
embedded as `DetermineIfTechnicallyConstrainedLegacy`.

Go machine details that the evaluator relies on are embedded from the Go
standard library sources it calls:
  * `net.IP.Equal` (with the IPv4-in-IPv6 mapped form) as `ipEqual`,
  * `net.IPv4zero`, `net.IPv6zero`, `net.IPv4len`, `net.IPv6len`,
  * `time.Time.Before` on the `NotBefore` instant, modelled as `<` on an
    integer count of seconds since the Unix epoch (only the order matters
    to the code), with the cutoff `time.Date(2016, 8, 23, 0, 0, 0, 0, UTC)`
    as the constant `nsSGCCutoff = 1471910400`.

Bytes are modelled as natural numbers; a byte slice is a `List Nat`.
-/

/-- Go `x509.ExtKeyUsage` restricted to the variants the code inspects.
The `switch` in the source matches exactly `ExtKeyUsageAny`,
`ExtKeyUsageServerAuth` and `ExtKeyUsageNetscapeServerGatedCrypto`; every
other enum value falls through the switch unexamined, so all remaining
values are represented by `other` with their integer code. -/
inductive x509.ExtKeyUsage where
  | any : x509.ExtKeyUsage
  | serverAuth : x509.ExtKeyUsage
  | netscapeServerGatedCrypto : x509.ExtKeyUsage
  | other : Nat → x509.ExtKeyUsage
deriving DecidableEq, Repr

/-- Go `net.IPNet`: a network address with its mask, both byte slices. -/
structure net.IPNet where
  IP : List Nat
  Mask : List Nat
deriving DecidableEq, Repr

/-- Go `net.IPv4len`. -/
def net.IPv4len : Nat := 4

/-- Go `net.IPv6len`. -/
def net.IPv6len : Nat := 16

/-- Go `net` package `v4InV6Prefix`: the 12 leading bytes of an
IPv4-in-IPv6 mapped address. -/
def net.v4InV6Pre : List Nat := [0, 0, 0, 0, 0, 0, 0, 0, 0, 0, 0xff, 0xff]

/-- Go `net.IPv4zero = IPv4(0,0,0,0)`: the 16-byte v4-mapped form of
0.0.0.0, as `net.IPv4` builds it. -/
def net.IPv4zero : List Nat := net.v4InV6Pre ++ [0, 0, 0, 0]

/-- Go `net.IPv6zero`: 16 zero bytes. -/
def net.IPv6zero : List Nat := List.replicate 16 0

/-- Go `net.IP.Equal`: byte equality, also identifying a 4-byte IPv4
address with its 16-byte IPv4-in-IPv6 mapped form. -/
def ipEqual (ip x : List Nat) : Bool :=
  if ip.length = x.length then ip == x
  else if ip.length = 4 ∧ x.length = 16 then
    (x.take 12 == net.v4InV6Pre) && (ip == x.drop 12)
  else if ip.length = 16 ∧ x.length = 4 then
    (ip.take 12 == net.v4InV6Pre) && (x == ip.drop 12)
  else false

/-- `isAllZeros` from `gx509/technicalconstraints.go`: true if the first
`length` bytes of `buf` are zero, false when `length` exceeds the slice. -/
def isAllZeros (buf : List Nat) (length : Nat) : Bool :=
  if length > buf.length then false
  else (buf.take length).all (fun b => b == 0)

/-- `isAllZeros` from the older variant in `gx509.go`: true if every byte
of the slice is zero (vacuously true for an empty slice). -/
def isAllZerosLegacy (buf : List Nat) : Bool :=
  buf.all (fun b => b == 0)

/-- The policy cutoff `time.Date(2016, time.August, 23, 0, 0, 0, 0,
time.UTC)` of `gx509/technicalconstraints.go` (equally the instant
`time.Parse(time.RFC3339, "2016-08-23T00:00:00Z")` of the `gx509.go`
variant, whose parse of this constant never fails), as seconds since the
Unix epoch. -/
def nsSGCCutoff : Int := 1471910400

/-- The fields of Go `x509.Certificate` that the evaluator reads.
`NotBefore` is seconds since the Unix epoch. -/
structure x509.Certificate where
  ExtKeyUsage : List x509.ExtKeyUsage
  NotBefore : Int
  PermittedDNSDomains : List String
  ExcludedDNSDomains : List String
  PermittedIPAddresses : List net.IPNet
  ExcludedIPAddresses : List net.IPNet
deriving DecidableEq, Repr

/-- The `for _, usage := range cert.ExtKeyUsage` loop shared verbatim by
both variants: threads the `hasServerAuth` and `hasStepUp` flags and
returns `none` on the early `return` triggered by `ExtKeyUsageAny`. -/
def scanEKU : List x509.ExtKeyUsage → Bool → Bool → Option (Bool × Bool)
  | [], sa, su => some (sa, su)
  | u :: rest, sa, su =>
    match u with
    | .any => none
    | .serverAuth => scanEKU rest true su
    | .netscapeServerGatedCrypto => scanEKU rest sa true
    | .other _ => scanEKU rest sa su

/-- Go `fmt.Sprintf` rendering of a `bool` with the `%v` verb. -/
def boolStr : Bool → String
  | true => "true"
  | false => "false"

/-- Body of the `cert.ExcludedIPAddresses` loop, IPv4 side:
`cidr.IP.Equal(net.IPv4zero) && isAllZeros(cidr.Mask, net.IPv4len)`. -/
def coversAllIPv4 (cidr : net.IPNet) : Bool :=
  ipEqual cidr.IP net.IPv4zero && isAllZeros cidr.Mask net.IPv4len

/-- Body of the `cert.ExcludedIPAddresses` loop, IPv6 side:
`cidr.IP.Equal(net.IPv6zero) && isAllZeros(cidr.Mask, net.IPv6len)`. -/
def coversAllIPv6 (cidr : net.IPNet) : Bool :=
  ipEqual cidr.IP net.IPv6zero && isAllZeros cidr.Mask net.IPv6len

/-- `hasDNSName` of the source:
`len(cert.PermittedDNSDomains) > 0 || len(cert.ExcludedDNSDomains) > 0`. -/
def hasDNSNameB (cert : x509.Certificate) : Bool :=
  decide (cert.PermittedDNSDomains.length > 0) ||
    decide (cert.ExcludedDNSDomains.length > 0)

/-- `hasIPAddressInPermittedSubtrees` of the source:
`len(cert.PermittedIPAddresses) > 0`. -/
def hasIPAddressInPermittedSubtreesB (cert : x509.Certificate) : Bool :=
  decide (cert.PermittedIPAddresses.length > 0)

/-- `excludesIPv4` after the `cert.ExcludedIPAddresses` loop: some entry
covers the whole IPv4 range. -/
def excludesIPv4B (cert : x509.Certificate) : Bool :=
  cert.ExcludedIPAddresses.any coversAllIPv4

/-- `excludesIPv6` after the `cert.ExcludedIPAddresses` loop: some entry
covers the whole IPv6 range. -/
def excludesIPv6B (cert : x509.Certificate) : Bool :=
  cert.ExcludedIPAddresses.any coversAllIPv6

/-- `hasIPAddressesInExcludedSubtrees` of the source:
`excludesIPv4 && excludesIPv6`. -/
def hasIPAddressesInExcludedSubtreesB (cert : x509.Certificate) : Bool :=
  excludesIPv4B cert && excludesIPv6B cert

/-- The `constraintsText` format string of `gx509/technicalconstraints.go`
with the three booleans interpolated by `%v`. -/
def constraintsText (d p e : Bool) : String :=
  "hasDNSName=" ++ boolStr d ++ " && (hasIPAddressInPermittedSubtrees=" ++
    boolStr p ++ " || hasIPAddressesInExcludedSubtrees=" ++ boolStr e ++ ")"

/-- `DetermineIfTechnicallyConstrained` of `gx509/technicalconstraints.go`. -/
def DetermineIfTechnicallyConstrained (cert : x509.Certificate) :
    Bool × String :=
  if cert.ExtKeyUsage.length = 0 then
    (false, "ExtKeyUsage is required")
  else
    let stepUpEquivalentToServerAuth := decide (cert.NotBefore < nsSGCCutoff)
    match scanEKU cert.ExtKeyUsage false false with
    | none => (false, "ExtKeyUsageAny not permitted")
    | some (hasServerAuth, hasStepUp) =>
      if !(hasServerAuth || (stepUpEquivalentToServerAuth && hasStepUp)) then
        (true, "Is constrained: hasServerAuth=" ++ boolStr hasServerAuth ++
          " || (beforeStepUpCutoff=" ++ boolStr stepUpEquivalentToServerAuth ++
          " && hasStepUp=" ++ boolStr hasStepUp ++ ")")
      else
        let ctext := constraintsText (hasDNSNameB cert)
          (hasIPAddressInPermittedSubtreesB cert)
          (hasIPAddressesInExcludedSubtreesB cert)
        if hasDNSNameB cert && (hasIPAddressInPermittedSubtreesB cert ||
            hasIPAddressesInExcludedSubtreesB cert) then
          (true, "Is constrained: " ++ ctext)
        else
          (false, "Is not constrained: " ++ ctext ++ ")")

/-- IPv4 side of the excluded-IP loop of the `gx509.go` variant:
`cidr.IP.Equal(net.IPv4zero) && isAllZeros(cidr.Mask)`. -/
def coversAllIPv4Legacy (cidr : net.IPNet) : Bool :=
  ipEqual cidr.IP net.IPv4zero && isAllZerosLegacy cidr.Mask

/-- IPv6 side of the excluded-IP loop of the `gx509.go` variant:
`cidr.IP.Equal(net.IPv6zero) && isAllZeros(cidr.Mask)`. -/
def coversAllIPv6Legacy (cidr : net.IPNet) : Bool :=
  ipEqual cidr.IP net.IPv6zero && isAllZerosLegacy cidr.Mask

/-- `DetermineIfTechnicallyConstrained` as written in `gx509.go` (older
variant: unchecked `isAllZeros`, different rationale strings). -/
def DetermineIfTechnicallyConstrainedLegacy (cert : x509.Certificate) :
    Bool × String :=
  if cert.ExtKeyUsage.length = 0 then
    (false, "ExtKeyUsage is required")
  else
    let stepUpEquivalentToServerAuth := decide (cert.NotBefore < nsSGCCutoff)
    match scanEKU cert.ExtKeyUsage false false with
    | none => (false, "ExtKeyUsageAny not permitted")
    | some (hasServerAuth, hasStepUp) =>
      if !(hasServerAuth || (stepUpEquivalentToServerAuth && hasStepUp)) then
        (true, "Is not constrained: not for Server Auth")
      else
        let excludesIPv4 := cert.ExcludedIPAddresses.any coversAllIPv4Legacy
        let excludesIPv6 := cert.ExcludedIPAddresses.any coversAllIPv6Legacy
        let hasIPAddressInPermittedSubtrees :=
          decide (cert.PermittedIPAddresses.length > 0)
        let hasIPAddressesInExcludedSubtrees := excludesIPv4 && excludesIPv6
        let hasDNSName := decide (cert.PermittedDNSDomains.length > 0) ||
          decide (cert.ExcludedDNSDomains.length > 0)
        if hasDNSName && (hasIPAddressInPermittedSubtrees ||
            hasIPAddressesInExcludedSubtrees) then
          (true, "Is constrained")
        else
          (false, "Is not constrained: " ++ constraintsText hasDNSName
            hasIPAddressInPermittedSubtrees hasIPAddressesInExcludedSubtrees)

/-! ### Concrete certificates used as evaluation witnesses -/

/-- A 2017 certificate eligible through `ServerAuth`, with DNS constraints
and a permitted IP subtree. -/
def certPermittedIPs : x509.Certificate :=
  ⟨[.other 2, .serverAuth], 1512172799, [".example.com", "example.com"], [],
    [⟨[128, 0, 0, 1], [255, 255, 255, 0]⟩], []⟩

/-- A post-cutoff certificate carrying only the legacy step-up usage. -/
def certLateStepUp : x509.Certificate :=
  ⟨[.netscapeServerGatedCrypto], 1512172799, [".example.com"], [], [], []⟩

/-- A certificate whose usages include `ExtKeyUsageAny` alongside
`ServerAuth` and step-up, with full dual-stack exclusions. -/
def certAnyEx : x509.Certificate :=
  ⟨[.any, .serverAuth, .netscapeServerGatedCrypto], 1417478399,
    [".example.com"], [], [],
    [⟨net.IPv4zero, net.IPv4zero⟩, ⟨net.IPv6zero, net.IPv6zero⟩]⟩

/-- A certificate with no extended key usages at all. -/
def certNoEKU : x509.Certificate :=
  ⟨[], 1417478399, [".example.com"], [], [], []⟩

/-- A certificate whose excluded entries carry zero addresses with empty
masks: the two evaluator variants disagree on it. -/
def certShortMaskPair : x509.Certificate :=
  ⟨[.serverAuth], 1512172799, ["example.com"], [], [],
    [⟨net.IPv4zero, []⟩, ⟨net.IPv6zero, []⟩]⟩

/-- A certificate whose excluded entries carry masks of exactly the
family's byte length. -/
def certWellFormedMasks : x509.Certificate :=
  ⟨[.serverAuth], 1512172799, ["example.com"], [], [],
    [⟨net.IPv4zero, [0, 0, 0, 0]⟩, ⟨net.IPv6zero, List.replicate 16 0⟩]⟩

/-- A 2017 `ServerAuth` certificate with DNS constraints and full
dual-stack excluded IP ranges. -/
def certDualExcluded : x509.Certificate :=
  ⟨[.other 2, .serverAuth], 1512172799, [".example.com"], [], [],
    [⟨net.IPv4zero, net.IPv4zero⟩, ⟨net.IPv6zero, net.IPv6zero⟩]⟩

/-- `certDualExcluded` with both its usage list and its excluded-IP list
reversed. -/
def certDualExcludedPerm : x509.Certificate :=
  ⟨[.serverAuth, .other 2], 1512172799, [".example.com"], [], [],
    [⟨net.IPv6zero, net.IPv6zero⟩, ⟨net.IPv4zero, net.IPv4zero⟩]⟩

/-! ### Helper lemmas about the usage-scanning loop and list combinators -/

/-- The usage loop takes the early `ExtKeyUsageAny` exit exactly when the
list contains `ExtKeyUsageAny`. -/
theorem scanEKU_eq_none_iff (l : List x509.ExtKeyUsage) :
    ∀ sa su : Bool, scanEKU l sa su = none ↔ x509.ExtKeyUsage.any ∈ l := by
  induction l with
  | nil => intro sa su; simp [scanEKU]
  | cons u rest ih => intro sa su; cases u <;> simp [scanEKU, ih]

/-- Without `ExtKeyUsageAny`, the usage loop finishes and its two flags
record membership of `ServerAuth` and `NetscapeServerGatedCrypto`. -/
theorem scanEKU_eq_some (l : List x509.ExtKeyUsage)
    (h : x509.ExtKeyUsage.any ∉ l) : ∀ sa su : Bool,
    scanEKU l sa su =
      some (sa || decide (x509.ExtKeyUsage.serverAuth ∈ l),
            su || decide (x509.ExtKeyUsage.netscapeServerGatedCrypto ∈ l)) := by
  induction l with
  | nil => intro sa su; simp [scanEKU]
  | cons u rest ih =>
    intro sa su
    have hr : x509.ExtKeyUsage.any ∉ rest :=
      fun hm => h (List.mem_cons_of_mem _ hm)
    cases u with
    | any => exact absurd (List.mem_cons_self _ _) h
    | serverAuth => simp [scanEKU, ih hr, List.mem_cons]
    | netscapeServerGatedCrypto => simp [scanEKU, ih hr, List.mem_cons]
    | other n =>
      simp only [scanEKU, ih hr, List.mem_cons, Option.some.injEq, Prod.mk.injEq]
      constructor <;> simp

/-- `List.any` only depends on the values of the predicate on members. -/
theorem any_congr_of_mem {α : Type} {l : List α} {f g : α → Bool}
    (h : ∀ a ∈ l, f a = g a) : l.any f = l.any g := by
  induction l with
  | nil => rfl
  | cons a t ih =>
    simp [List.any_cons, h a (List.mem_cons_self a t),
      ih (fun b hb => h b (List.mem_cons_of_mem _ hb))]

/-- `List.any` is invariant under permutation of the list. -/
theorem any_of_perm {α : Type} {l1 l2 : List α} (f : α → Bool)
    (h : l1.Perm l2) : l1.any f = l2.any f := by
  rw [Bool.eq_iff_iff, List.any_eq_true, List.any_eq_true]
  constructor
  · rintro ⟨x, hx, hfx⟩; exact ⟨x, h.mem_iff.mp hx, hfx⟩
  · rintro ⟨x, hx, hfx⟩; exact ⟨x, h.mem_iff.mpr hx, hfx⟩

/-- On a buffer of exactly the requested length, the length-checked
`isAllZeros` agrees with the unchecked variant. -/
theorem isAllZeros_length_eq (buf : List Nat) :
    isAllZeros buf buf.length = isAllZerosLegacy buf := by
  simp [isAllZeros, isAllZerosLegacy]

/-! ### Branch characterizations of the evaluator (shared helpers) -/

/-- Empty usage list: the evaluator takes the first early return. -/
theorem determine_empty (cert : x509.Certificate) (h : cert.ExtKeyUsage = []) :
    DetermineIfTechnicallyConstrained cert =
      (false, "ExtKeyUsage is required") := by
  simp [DetermineIfTechnicallyConstrained, h]

/-- `ExtKeyUsageAny` present: the evaluator takes the loop's early return. -/
theorem determine_any (cert : x509.Certificate)
    (h : x509.ExtKeyUsage.any ∈ cert.ExtKeyUsage) :
    DetermineIfTechnicallyConstrained cert =
      (false, "ExtKeyUsageAny not permitted") := by
  have h0 : ¬(cert.ExtKeyUsage.length = 0) := by
    simp only [List.length_eq_zero]
    exact List.ne_nil_of_mem h
  have hscan : scanEKU cert.ExtKeyUsage false false = none :=
    (scanEKU_eq_none_iff _ _ _).mpr h
  simp [DetermineIfTechnicallyConstrained, h0, hscan]

/-- Not eligible for server auth: the evaluator returns `true` with the
three-boolean rationale. -/
theorem determine_ineligible (cert : x509.Certificate)
    (hne : cert.ExtKeyUsage ≠ [])
    (hnoany : x509.ExtKeyUsage.any ∉ cert.ExtKeyUsage)
    (helig : (decide (x509.ExtKeyUsage.serverAuth ∈ cert.ExtKeyUsage) ||
      (decide (cert.NotBefore < nsSGCCutoff) &&
        decide (x509.ExtKeyUsage.netscapeServerGatedCrypto ∈ cert.ExtKeyUsage)))
        = false) :
    DetermineIfTechnicallyConstrained cert =
      (true, "Is constrained: hasServerAuth=" ++
        boolStr (decide (x509.ExtKeyUsage.serverAuth ∈ cert.ExtKeyUsage)) ++
        " || (beforeStepUpCutoff=" ++
        boolStr (decide (cert.NotBefore < nsSGCCutoff)) ++ " && hasStepUp=" ++
        boolStr (decide
          (x509.ExtKeyUsage.netscapeServerGatedCrypto ∈ cert.ExtKeyUsage)) ++
        ")") := by
  have h0 : ¬(cert.ExtKeyUsage.length = 0) := by
    simp only [List.length_eq_zero]; exact hne
  simp [DetermineIfTechnicallyConstrained, h0, scanEKU_eq_some _ hnoany, helig]

/-- Eligible for server auth: the evaluator reaches the name-constraint
combinator and returns its decision with the `constraintsText` rationale. -/
theorem determine_eligible (cert : x509.Certificate)
    (hnoany : x509.ExtKeyUsage.any ∉ cert.ExtKeyUsage)
    (helig : (decide (x509.ExtKeyUsage.serverAuth ∈ cert.ExtKeyUsage) ||
      (decide (cert.NotBefore < nsSGCCutoff) &&
        decide (x509.ExtKeyUsage.netscapeServerGatedCrypto ∈ cert.ExtKeyUsage)))
        = true) :
    DetermineIfTechnicallyConstrained cert =
      (if hasDNSNameB cert && (hasIPAddressInPermittedSubtreesB cert ||
          hasIPAddressesInExcludedSubtreesB cert) then
        (true, "Is constrained: " ++ constraintsText (hasDNSNameB cert)
          (hasIPAddressInPermittedSubtreesB cert)
          (hasIPAddressesInExcludedSubtreesB cert))
      else
        (false, "Is not constrained: " ++ constraintsText (hasDNSNameB cert)
          (hasIPAddressInPermittedSubtreesB cert)
          (hasIPAddressesInExcludedSubtreesB cert) ++ ")")) := by
  have hne : cert.ExtKeyUsage ≠ [] := by
    intro h0
    rw [h0] at helig
    simp at helig
  have h0 : ¬(cert.ExtKeyUsage.length = 0) := by
    simp only [List.length_eq_zero]; exact hne
  simp [DetermineIfTechnicallyConstrained, h0, scanEKU_eq_some _ hnoany, helig]

/-- The eligibility disjunction, in `Prop` form, implies the `Bool`
condition the code tests. -/
theorem elig_bool_of_prop (cert : x509.Certificate)
    (helig : x509.ExtKeyUsage.serverAuth ∈ cert.ExtKeyUsage ∨
      (x509.ExtKeyUsage.netscapeServerGatedCrypto ∈ cert.ExtKeyUsage ∧
        cert.NotBefore < nsSGCCutoff)) :
    (decide (x509.ExtKeyUsage.serverAuth ∈ cert.ExtKeyUsage) ||
      (decide (cert.NotBefore < nsSGCCutoff) &&
        decide (x509.ExtKeyUsage.netscapeServerGatedCrypto ∈ cert.ExtKeyUsage)))
      = true := by
  rcases helig with h | ⟨h1, h2⟩
  · simp [h]
  · simp [h1, h2]

/-- First component of the combinator's final branch. -/
theorem fst_ite_bool (b : Bool) (s t : String) :
    (if b then ((true : Bool), s) else ((false : Bool), t)).1 = b := by
  cases b <;> simp

/-! ### Claim theorems -/

/-- C1: for every certificate with a non-empty usage list, no `Any` usage,
and `ServerAuth` or pre-cutoff step-up, the evaluator returns `true` iff a
DNS constraint is present and either a permitted IP subtree exists or some
excluded entries fully cover both IPv4 and IPv6. -/
theorem DetermineIfTechnicallyConstrained_eligible_iff
    (cert : x509.Certificate)
    (hne : cert.ExtKeyUsage ≠ [])
    (hnoany : x509.ExtKeyUsage.any ∉ cert.ExtKeyUsage)
    (helig : x509.ExtKeyUsage.serverAuth ∈ cert.ExtKeyUsage ∨
      (x509.ExtKeyUsage.netscapeServerGatedCrypto ∈ cert.ExtKeyUsage ∧
        cert.NotBefore < nsSGCCutoff)) :
    (DetermineIfTechnicallyConstrained cert).1 = true ↔
      ((cert.PermittedDNSDomains ≠ [] ∨ cert.ExcludedDNSDomains ≠ []) ∧
        (cert.PermittedIPAddresses ≠ [] ∨
          ((∃ c ∈ cert.ExcludedIPAddresses, coversAllIPv4 c = true) ∧
            (∃ c ∈ cert.ExcludedIPAddresses, coversAllIPv6 c = true)))) := by
  rw [determine_eligible cert hnoany (elig_bool_of_prop cert helig),
    fst_ite_bool]
  simp [hasDNSNameB, hasIPAddressInPermittedSubtreesB,
    hasIPAddressesInExcludedSubtreesB, excludesIPv4B, excludesIPv6B,
    List.any_eq_true, List.length_pos]

/-- C1 witness: a concrete eligible certificate with a permitted IP
subtree and DNS constraints evaluates to `true`, matching the formula. -/
theorem DetermineIfTechnicallyConstrained_eligible_iff_witness :
    (certPermittedIPs.ExtKeyUsage ≠ [] ∧
      x509.ExtKeyUsage.any ∉ certPermittedIPs.ExtKeyUsage ∧
      x509.ExtKeyUsage.serverAuth ∈ certPermittedIPs.ExtKeyUsage) ∧
    ((DetermineIfTechnicallyConstrained certPermittedIPs).1 = true ↔
      ((certPermittedIPs.PermittedDNSDomains ≠ [] ∨
          certPermittedIPs.ExcludedDNSDomains ≠ []) ∧
        (certPermittedIPs.PermittedIPAddresses ≠ [] ∨
          ((∃ c ∈ certPermittedIPs.ExcludedIPAddresses,
              coversAllIPv4 c = true) ∧
            (∃ c ∈ certPermittedIPs.ExcludedIPAddresses,
              coversAllIPv6 c = true))))) :=
  ⟨by decide, DetermineIfTechnicallyConstrained_eligible_iff certPermittedIPs
    (by decide) (by decide) (Or.inl (by decide))⟩

/-- C2: a certificate with usages but neither `Any`, `ServerAuth`, nor an
effective pre-cutoff step-up is declared constrained, with a rationale
naming `hasServerAuth`, `beforeStepUpCutoff` and `hasStepUp`. -/
theorem DetermineIfTechnicallyConstrained_not_eligible_true
    (cert : x509.Certificate)
    (hne : cert.ExtKeyUsage ≠ [])
    (hnoany : x509.ExtKeyUsage.any ∉ cert.ExtKeyUsage)
    (hnosa : x509.ExtKeyUsage.serverAuth ∉ cert.ExtKeyUsage)
    (hstep : x509.ExtKeyUsage.netscapeServerGatedCrypto ∉ cert.ExtKeyUsage ∨
      nsSGCCutoff ≤ cert.NotBefore) :
    DetermineIfTechnicallyConstrained cert =
      (true, "Is constrained: hasServerAuth=false || (beforeStepUpCutoff=" ++
        boolStr (decide (cert.NotBefore < nsSGCCutoff)) ++ " && hasStepUp=" ++
        boolStr (decide (x509.ExtKeyUsage.netscapeServerGatedCrypto ∈
          cert.ExtKeyUsage)) ++ ")") := by
  have helig : (decide (x509.ExtKeyUsage.serverAuth ∈ cert.ExtKeyUsage) ||
      (decide (cert.NotBefore < nsSGCCutoff) &&
        decide (x509.ExtKeyUsage.netscapeServerGatedCrypto ∈ cert.ExtKeyUsage)))
      = false := by
    rcases hstep with h | h
    · simp [hnosa, h]
    · simp [hnosa, not_lt.mpr h]
  rw [determine_ineligible cert hne hnoany helig]
  simp [boolStr, hnosa]

/-- C2 witness: a post-cutoff step-up-only certificate is declared
constrained with the three-boolean rationale. -/
theorem DetermineIfTechnicallyConstrained_not_eligible_true_witness :
    (certLateStepUp.ExtKeyUsage ≠ [] ∧
      x509.ExtKeyUsage.any ∉ certLateStepUp.ExtKeyUsage ∧
      x509.ExtKeyUsage.serverAuth ∉ certLateStepUp.ExtKeyUsage ∧
      nsSGCCutoff ≤ certLateStepUp.NotBefore) ∧
    DetermineIfTechnicallyConstrained certLateStepUp =
      (true, "Is constrained: hasServerAuth=false || (beforeStepUpCutoff=" ++
        boolStr (decide (certLateStepUp.NotBefore < nsSGCCutoff)) ++
        " && hasStepUp=" ++
        boolStr (decide (x509.ExtKeyUsage.netscapeServerGatedCrypto ∈
          certLateStepUp.ExtKeyUsage)) ++ ")") :=
  ⟨by decide, DetermineIfTechnicallyConstrained_not_eligible_true
    certLateStepUp (by decide) (by decide) (by decide)
    (Or.inr (by decide))⟩

/-- C3: before the cutoff, a lone step-up usage and a lone `ServerAuth`
usage produce identical decisions, for arbitrary constraint fields. -/
theorem DetermineIfTechnicallyConstrained_stepUp_equiv_serverAuth
    (nb : Int) (pd ed : List String) (pip eip : List net.IPNet)
    (h : nb < nsSGCCutoff) :
    DetermineIfTechnicallyConstrained
        ⟨[x509.ExtKeyUsage.netscapeServerGatedCrypto], nb, pd, ed, pip, eip⟩ =
      DetermineIfTechnicallyConstrained
        ⟨[x509.ExtKeyUsage.serverAuth], nb, pd, ed, pip, eip⟩ := by
  simp [DetermineIfTechnicallyConstrained, scanEKU, h, hasDNSNameB,
    hasIPAddressInPermittedSubtreesB, hasIPAddressesInExcludedSubtreesB,
    excludesIPv4B, excludesIPv6B]

/-- C3 witness: the equivalence evaluated at a concrete 2014 date and
concrete constraint fields. -/
theorem DetermineIfTechnicallyConstrained_stepUp_equiv_serverAuth_witness :
    (1417478399 : Int) < nsSGCCutoff ∧
    DetermineIfTechnicallyConstrained
        ⟨[x509.ExtKeyUsage.netscapeServerGatedCrypto], 1417478399,
          [".example.com"], [], [], []⟩ =
      DetermineIfTechnicallyConstrained
        ⟨[x509.ExtKeyUsage.serverAuth], 1417478399,
          [".example.com"], [], [], []⟩ :=
  ⟨by decide, DetermineIfTechnicallyConstrained_stepUp_equiv_serverAuth
    1417478399 [".example.com"] [] [] [] (by decide)⟩

/-- C4 counterexample: on a certificate containing `ExtKeyUsageAny` the
evaluator's rationale is not the claimed "anyExtendedKeyUsage not
permitted" string. -/
theorem anyEKU_rationale_counterexample :
    DetermineIfTechnicallyConstrained certAnyEx ≠
      (false, "anyExtendedKeyUsage not permitted") := by decide

/-- C4 (amended): any certificate whose usage list contains
`ExtKeyUsageAny` evaluates to `(false, "ExtKeyUsageAny not permitted")`,
regardless of every other field. -/
theorem DetermineIfTechnicallyConstrained_anyEKU_false
    (cert : x509.Certificate)
    (h : x509.ExtKeyUsage.any ∈ cert.ExtKeyUsage) :
    DetermineIfTechnicallyConstrained cert =
      (false, "ExtKeyUsageAny not permitted") :=
  determine_any cert h

/-- C4 witness: the amended result on a concrete certificate that carries
`Any` together with `ServerAuth`, step-up and full exclusions. -/
theorem DetermineIfTechnicallyConstrained_anyEKU_false_witness :
    x509.ExtKeyUsage.any ∈ certAnyEx.ExtKeyUsage ∧
    DetermineIfTechnicallyConstrained certAnyEx =
      (false, "ExtKeyUsageAny not permitted") :=
  ⟨by decide, DetermineIfTechnicallyConstrained_anyEKU_false certAnyEx
    (by decide)⟩

/-- C5: a certificate with an empty usage list evaluates to
`(false, "ExtKeyUsage is required")`, for all other field values. -/
theorem DetermineIfTechnicallyConstrained_emptyEKU
    (cert : x509.Certificate) (h : cert.ExtKeyUsage = []) :
    DetermineIfTechnicallyConstrained cert =
      (false, "ExtKeyUsage is required") :=
  determine_empty cert h

/-- C5 witness: the empty-usage result on a concrete certificate. -/
theorem DetermineIfTechnicallyConstrained_emptyEKU_witness :
    certNoEKU.ExtKeyUsage = [] ∧
    DetermineIfTechnicallyConstrained certNoEKU =
      (false, "ExtKeyUsage is required") :=
  ⟨by decide, DetermineIfTechnicallyConstrained_emptyEKU certNoEKU rfl⟩

/-- C6: `isAllZeros` returns `false` whenever the requested length
exceeds the buffer, and an excluded entry whose mask is shorter than the
address family's byte length never passes the full-range covering check
for that family. -/
theorem shortMask_never_covers (buf : List Nat) (n : Nat) (cidr : net.IPNet)
    (h : buf.length < n) :
    isAllZeros buf n = false ∧
    (cidr.Mask.length < net.IPv4len → coversAllIPv4 cidr = false) ∧
    (cidr.Mask.length < net.IPv6len → coversAllIPv6 cidr = false) := by
  refine ⟨?_, ?_, ?_⟩
  · simp [isAllZeros, h]
  · intro h4
    simp [coversAllIPv4, isAllZeros, h4]
  · intro h6
    simp [coversAllIPv6, isAllZeros, h6]

/-- C6 witness: a two-byte zero mask on the IPv4 zero address, checked
against both family lengths. -/
theorem shortMask_never_covers_witness :
    ([0, 0] : List Nat).length < 4 ∧
    (isAllZeros [0, 0] 4 = false ∧
      ((⟨net.IPv4zero, [0, 0]⟩ : net.IPNet).Mask.length < net.IPv4len →
        coversAllIPv4 ⟨net.IPv4zero, [0, 0]⟩ = false) ∧
      ((⟨net.IPv4zero, [0, 0]⟩ : net.IPNet).Mask.length < net.IPv6len →
        coversAllIPv6 ⟨net.IPv4zero, [0, 0]⟩ = false)) :=
  ⟨by decide, shortMask_never_covers [0, 0] 4 ⟨net.IPv4zero, [0, 0]⟩
    (by decide)⟩

/-- C7: whenever name-constraint evaluation is reached, the rationale
interpolates the three booleans `hasDNSName`,
`hasIPAddressInPermittedSubtrees` and `hasIPAddressesInExcludedSubtrees`,
both for a `true` and for a `false` decision. -/
theorem DetermineIfTechnicallyConstrained_rationale_encodes_booleans
    (cert : x509.Certificate)
    (hne : cert.ExtKeyUsage ≠ [])
    (hnoany : x509.ExtKeyUsage.any ∉ cert.ExtKeyUsage)
    (helig : x509.ExtKeyUsage.serverAuth ∈ cert.ExtKeyUsage ∨
      (x509.ExtKeyUsage.netscapeServerGatedCrypto ∈ cert.ExtKeyUsage ∧
        cert.NotBefore < nsSGCCutoff)) :
    ((DetermineIfTechnicallyConstrained cert).1 = true →
      (DetermineIfTechnicallyConstrained cert).2 =
        "Is constrained: " ++ constraintsText (hasDNSNameB cert)
          (hasIPAddressInPermittedSubtreesB cert)
          (hasIPAddressesInExcludedSubtreesB cert)) ∧
    ((DetermineIfTechnicallyConstrained cert).1 = false →
      (DetermineIfTechnicallyConstrained cert).2 =
        "Is not constrained: " ++ constraintsText (hasDNSNameB cert)
          (hasIPAddressInPermittedSubtreesB cert)
          (hasIPAddressesInExcludedSubtreesB cert) ++ ")") := by
  rw [determine_eligible cert hnoany (elig_bool_of_prop cert helig)]
  by_cases hc : (hasDNSNameB cert && (hasIPAddressInPermittedSubtreesB cert ||
      hasIPAddressesInExcludedSubtreesB cert)) = true
  · simp [hc]
  · simp [hc]

/-- C7 witness: the rationale on a concrete eligible certificate with a
`true` decision. -/
theorem DetermineIfTechnicallyConstrained_rationale_encodes_booleans_witness :
    (certDualExcluded.ExtKeyUsage ≠ [] ∧
      x509.ExtKeyUsage.any ∉ certDualExcluded.ExtKeyUsage ∧
      x509.ExtKeyUsage.serverAuth ∈ certDualExcluded.ExtKeyUsage) ∧
    (((DetermineIfTechnicallyConstrained certDualExcluded).1 = true →
      (DetermineIfTechnicallyConstrained certDualExcluded).2 =
        "Is constrained: " ++ constraintsText (hasDNSNameB certDualExcluded)
          (hasIPAddressInPermittedSubtreesB certDualExcluded)
          (hasIPAddressesInExcludedSubtreesB certDualExcluded)) ∧
    ((DetermineIfTechnicallyConstrained certDualExcluded).1 = false →
      (DetermineIfTechnicallyConstrained certDualExcluded).2 =
        "Is not constrained: " ++
          constraintsText (hasDNSNameB certDualExcluded)
          (hasIPAddressInPermittedSubtreesB certDualExcluded)
          (hasIPAddressesInExcludedSubtreesB certDualExcluded) ++ ")")) :=
  ⟨by decide, DetermineIfTechnicallyConstrained_rationale_encodes_booleans
    certDualExcluded (by decide) (by decide) (Or.inl (by decide))⟩

/-- C8: the evaluator is a pure function of the certificate facts: two
certificates that agree on every field the evaluator reads produce
identical `(bool, rationale)` pairs. -/
theorem DetermineIfTechnicallyConstrained_deterministic
    (c1 c2 : x509.Certificate)
    (h1 : c1.ExtKeyUsage = c2.ExtKeyUsage)
    (h2 : c1.NotBefore = c2.NotBefore)
    (h3 : c1.PermittedDNSDomains = c2.PermittedDNSDomains)
    (h4 : c1.ExcludedDNSDomains = c2.ExcludedDNSDomains)
    (h5 : c1.PermittedIPAddresses = c2.PermittedIPAddresses)
    (h6 : c1.ExcludedIPAddresses = c2.ExcludedIPAddresses) :
    DetermineIfTechnicallyConstrained c1 =
      DetermineIfTechnicallyConstrained c2 := by
  cases c1
  cases c2
  simp_all

/-- C8 witness: determinism applied at a concrete certificate. -/
theorem DetermineIfTechnicallyConstrained_deterministic_witness :
    DetermineIfTechnicallyConstrained certDualExcluded =
      DetermineIfTechnicallyConstrained certDualExcluded :=
  DetermineIfTechnicallyConstrained_deterministic certDualExcluded
    certDualExcluded rfl rfl rfl rfl rfl rfl

/-- C9 counterexample: on a certificate whose excluded zero-address
entries carry empty masks, the checked variant returns `false` while the
legacy variant returns `true`. -/
theorem variants_boolean_counterexample :
    (DetermineIfTechnicallyConstrained certShortMaskPair).1 = false ∧
    (DetermineIfTechnicallyConstrainedLegacy certShortMaskPair).1 = true := by
  decide

/-- C9 (amended): the two variants return the same boolean on every
certificate whose excluded zero-address entries carry masks of exactly
the family's byte length; they can differ on malformed mask lengths. -/
theorem DetermineIfTechnicallyConstrained_variants_agree
    (cert : x509.Certificate)
    (h : ∀ cidr ∈ cert.ExcludedIPAddresses,
      (ipEqual cidr.IP net.IPv4zero = true → cidr.Mask.length = net.IPv4len) ∧
      (ipEqual cidr.IP net.IPv6zero = true → cidr.Mask.length = net.IPv6len)) :
    (DetermineIfTechnicallyConstrained cert).1 =
      (DetermineIfTechnicallyConstrainedLegacy cert).1 := by
  have h4 : cert.ExcludedIPAddresses.any coversAllIPv4 =
      cert.ExcludedIPAddresses.any coversAllIPv4Legacy := by
    apply any_congr_of_mem
    intro c hc
    rcases h c hc with ⟨hm4, _⟩
    unfold coversAllIPv4 coversAllIPv4Legacy
    cases he : ipEqual c.IP net.IPv4zero with
    | false => simp
    | true =>
      have hl : c.Mask.length = net.IPv4len := hm4 he
      rw [← hl, isAllZeros_length_eq]
  have h6 : cert.ExcludedIPAddresses.any coversAllIPv6 =
      cert.ExcludedIPAddresses.any coversAllIPv6Legacy := by
    apply any_congr_of_mem
    intro c hc
    rcases h c hc with ⟨_, hm6⟩
    unfold coversAllIPv6 coversAllIPv6Legacy
    cases he : ipEqual c.IP net.IPv6zero with
    | false => simp
    | true =>
      have hl : c.Mask.length = net.IPv6len := hm6 he
      rw [← hl, isAllZeros_length_eq]
  by_cases h0 : cert.ExtKeyUsage.length = 0
  · simp [DetermineIfTechnicallyConstrained,
      DetermineIfTechnicallyConstrainedLegacy, h0]
  · cases hscan : scanEKU cert.ExtKeyUsage false false with
    | none =>
      simp [DetermineIfTechnicallyConstrained,
        DetermineIfTechnicallyConstrainedLegacy, h0, hscan]
    | some p =>
      rcases p with ⟨sa, su⟩
      by_cases helig :
          (sa || (decide (cert.NotBefore < nsSGCCutoff) && su)) = true
      · simp only [DetermineIfTechnicallyConstrained,
          DetermineIfTechnicallyConstrainedLegacy, h0, if_false, hscan,
          helig, Bool.not_true, Bool.false_eq_true, ite_false]
        rw [fst_ite_bool, fst_ite_bool]
        simp [hasDNSNameB, hasIPAddressInPermittedSubtreesB,
          hasIPAddressesInExcludedSubtreesB, excludesIPv4B, excludesIPv6B,
          h4, h6]
      · have helig' :
            (sa || (decide (cert.NotBefore < nsSGCCutoff) && su)) = false :=
          Bool.eq_false_iff.mpr helig
        simp [DetermineIfTechnicallyConstrained,
          DetermineIfTechnicallyConstrainedLegacy, h0, hscan, helig']

/-- C9 witness: agreement on a concrete certificate whose excluded
entries carry well-formed 4-byte and 16-byte masks. -/
theorem DetermineIfTechnicallyConstrained_variants_agree_witness :
    (∀ cidr ∈ certWellFormedMasks.ExcludedIPAddresses,
      (ipEqual cidr.IP net.IPv4zero = true →
        cidr.Mask.length = net.IPv4len) ∧
      (ipEqual cidr.IP net.IPv6zero = true →
        cidr.Mask.length = net.IPv6len)) ∧
    (DetermineIfTechnicallyConstrained certWellFormedMasks).1 =
      (DetermineIfTechnicallyConstrainedLegacy certWellFormedMasks).1 :=
  ⟨by decide, DetermineIfTechnicallyConstrained_variants_agree
    certWellFormedMasks (by decide)⟩

/-- C10: the decision pair is unchanged under any permutation of the
usage list and of the excluded-IP list (the other fields held fixed). -/
theorem DetermineIfTechnicallyConstrained_perm_invariant
    (c1 c2 : x509.Certificate)
    (hE : c1.ExtKeyUsage.Perm c2.ExtKeyUsage)
    (hX : c1.ExcludedIPAddresses.Perm c2.ExcludedIPAddresses)
    (h2 : c1.NotBefore = c2.NotBefore)
    (h3 : c1.PermittedDNSDomains = c2.PermittedDNSDomains)
    (h4 : c1.ExcludedDNSDomains = c2.ExcludedDNSDomains)
    (h5 : c1.PermittedIPAddresses = c2.PermittedIPAddresses) :
    DetermineIfTechnicallyConstrained c1 =
      DetermineIfTechnicallyConstrained c2 := by
  have hsa : decide (x509.ExtKeyUsage.serverAuth ∈ c1.ExtKeyUsage) =
      decide (x509.ExtKeyUsage.serverAuth ∈ c2.ExtKeyUsage) :=
    decide_eq_decide.mpr hE.mem_iff
  have hsu :
      decide (x509.ExtKeyUsage.netscapeServerGatedCrypto ∈ c1.ExtKeyUsage) =
      decide (x509.ExtKeyUsage.netscapeServerGatedCrypto ∈ c2.ExtKeyUsage) :=
    decide_eq_decide.mpr hE.mem_iff
  have hd : hasDNSNameB c1 = hasDNSNameB c2 := by
    simp [hasDNSNameB, h3, h4]
  have hp : hasIPAddressInPermittedSubtreesB c1 =
      hasIPAddressInPermittedSubtreesB c2 := by
    simp [hasIPAddressInPermittedSubtreesB, h5]
  have hx4 : excludesIPv4B c1 = excludesIPv4B c2 := any_of_perm _ hX
  have hx6 : excludesIPv6B c1 = excludesIPv6B c2 := any_of_perm _ hX
  have hxe : hasIPAddressesInExcludedSubtreesB c1 =
      hasIPAddressesInExcludedSubtreesB c2 := by
    simp [hasIPAddressesInExcludedSubtreesB, hx4, hx6]
  by_cases h0 : c1.ExtKeyUsage = []
  · have h0' : c2.ExtKeyUsage = [] := by
      apply List.perm_nil.mp
      rw [← h0]
      exact hE.symm
    rw [determine_empty c1 h0, determine_empty c2 h0']
  · by_cases hany : x509.ExtKeyUsage.any ∈ c1.ExtKeyUsage
    · rw [determine_any c1 hany, determine_any c2 (hE.mem_iff.mp hany)]
    · have hany2 : x509.ExtKeyUsage.any ∉ c2.ExtKeyUsage :=
        fun hm => hany (hE.mem_iff.mpr hm)
      have hne2 : c2.ExtKeyUsage ≠ [] := by
        intro hnil
        exact h0 (List.perm_nil.mp (hnil ▸ hE))
      by_cases helig :
          (decide (x509.ExtKeyUsage.serverAuth ∈ c1.ExtKeyUsage) ||
            (decide (c1.NotBefore < nsSGCCutoff) &&
              decide (x509.ExtKeyUsage.netscapeServerGatedCrypto ∈
                c1.ExtKeyUsage))) = true
      · have helig2 :
            (decide (x509.ExtKeyUsage.serverAuth ∈ c2.ExtKeyUsage) ||
              (decide (c2.NotBefore < nsSGCCutoff) &&
                decide (x509.ExtKeyUsage.netscapeServerGatedCrypto ∈
                  c2.ExtKeyUsage))) = true := by
          rw [← hsa, ← hsu, ← h2]
          exact helig
        rw [determine_eligible c1 hany helig,
          determine_eligible c2 hany2 helig2, hd, hp, hxe]
      · have heligf :
            (decide (x509.ExtKeyUsage.serverAuth ∈ c1.ExtKeyUsage) ||
              (decide (c1.NotBefore < nsSGCCutoff) &&
                decide (x509.ExtKeyUsage.netscapeServerGatedCrypto ∈
                  c1.ExtKeyUsage))) = false :=
          Bool.eq_false_iff.mpr helig
        have helig2 :
            (decide (x509.ExtKeyUsage.serverAuth ∈ c2.ExtKeyUsage) ||
              (decide (c2.NotBefore < nsSGCCutoff) &&
                decide (x509.ExtKeyUsage.netscapeServerGatedCrypto ∈
                  c2.ExtKeyUsage))) = false := by
          rw [← hsa, ← hsu, ← h2]
          exact heligf
        rw [determine_ineligible c1 h0 hany heligf,
          determine_ineligible c2 hne2 hany2 helig2, hsa, hsu, h2]

/-- C10 witness: invariance between a concrete certificate and its
reversed-lists counterpart. -/
theorem DetermineIfTechnicallyConstrained_perm_invariant_witness :
    DetermineIfTechnicallyConstrained certDualExcluded =
      DetermineIfTechnicallyConstrained certDualExcludedPerm :=
  DetermineIfTechnicallyConstrained_perm_invariant certDualExcluded
    certDualExcludedPerm (by decide) (by decide) rfl rfl rfl rfl
